import Mathlib

/-!
Verification of the kinematic core of an endless-runner platformer.

The embedding models, from the Python sources:
- `physics.move_and_collide` (identical to `main.move_and_collide_player`):
  axis-separated collision resolution of a body against a platform list;
- the body rectangle derivation shared by `Player.rect`, `Enemy.rect`
  (both files): `Rect(int(x - w/2), int(y - h), w, h)`;
- `main.Enemy` (platform-bounded patrol, stompable) and `enemy.Enemy`
  (full-physics patrol variant);
- `main.check_player_enemy` and the damage block of the main loop;
- `main.Camera.update`;
- the level streamer: `build_initial_platforms`, `spawn_next_platform`,
  `maybe_spawn_enemy_for_platform`, `ensure_content_ahead`, `despawn_behind`.

Python floats are modelled as rationals; `pygame.Rect` fields are integers.
Python `int(...)` is truncation toward zero (`pytrunc`), Python `round(...)`
is round-half-to-even (`pyround`), Python `//` is floor division (`Int.fdiv`).
Randomness (`random.randint`, `random.random`, `random.choice`) is modelled
by an explicit oracle of choices, and the bounded loop of
`ensure_content_ahead` by fuel returning `Option` (`none` = fuel exhausted;
likewise `despawn_behind` on an empty platform list models the IndexError
of `platforms[0]`).
-/

/-- Python `int(q)` on a real value: truncation toward zero. -/
def pytrunc (q : ℚ) : ℤ :=
  if 0 ≤ q then ⌊q⌋ else ⌈q⌉

/-- Python 3 `round(q)`: round half to even. -/
def pyround (q : ℚ) : ℤ :=
  if q - ⌊q⌋ < 1/2 then ⌊q⌋
  else if (1:ℚ)/2 < q - ⌊q⌋ then ⌊q⌋ + 1
  else if ⌊q⌋ % 2 = 0 then ⌊q⌋ else ⌊q⌋ + 1

/-- `pygame.Rect`: integer x, y, width, height; y grows downward. -/
structure Rect where
  x : ℤ
  y : ℤ
  w : ℤ
  h : ℤ
deriving DecidableEq, Repr

def Rect.left (r : Rect) : ℤ := r.x

def Rect.right (r : Rect) : ℤ := r.x + r.w

def Rect.top (r : Rect) : ℤ := r.y

def Rect.bottom (r : Rect) : ℤ := r.y + r.h

/-- `Rect.centerx` in pygame is `x + w // 2` (floor division). -/
def Rect.centerx (r : Rect) : ℤ := r.x + Int.fdiv r.w 2

/-- `pygame.Rect.colliderect`: strict overlap on both axes. -/
def collide (a b : Rect) : Prop :=
  a.x < b.right ∧ a.y < b.bottom ∧ b.x < a.right ∧ b.y < a.bottom

instance (a b : Rect) : Decidable (collide a b) := by
  unfold collide; infer_instance

/-- `pygame.Rect.collidepoint`: right and bottom edges excluded. -/
def collidepoint (r : Rect) (px py : ℚ) : Prop :=
  (r.left : ℚ) ≤ px ∧ px < (r.right : ℚ) ∧ (r.top : ℚ) ≤ py ∧ py < (r.bottom : ℚ)

instance (r : Rect) (px py : ℚ) : Decidable (collidepoint r px py) := by
  unfold collidepoint; infer_instance

def Rect.shiftX (r : Rect) (d : ℤ) : Rect := { r with x := r.x + d }

def Rect.shiftY (r : Rect) (d : ℤ) : Rect := { r with y := r.y + d }

/-- A kinematic body (shared by the player and both enemy variants):
feet anchor `(x, y)` (`x` horizontal center, `y` bottom), velocity,
footprint, grounded flag. -/
structure Entity where
  x : ℚ
  y : ℚ
  vx : ℚ
  vy : ℚ
  w : ℤ
  h : ℤ
  on_ground : Bool
deriving DecidableEq, Repr

/-- The rectangle derivation of `Player.rect` (main.py) and `Enemy.rect`
(enemy.py): `Rect(int(x - w/2), int(y - h), w, h)`. -/
def bodyRect (x y : ℚ) (w h : ℤ) : Rect :=
  ⟨pytrunc (x - (w : ℚ)/2), pytrunc (y - (h : ℚ)), w, h⟩

def Entity.rect (e : Entity) : Rect := bodyRect e.x e.y e.w e.h

/-- Horizontal pass of `move_and_collide`: the rect was already shifted by
`int(round(dx))`; every overlapping platform clamps the rect and zeroes
`vx` (the zeroing happens on any overlap, whatever the sign of `dx`). -/
def horizPass (dx : ℚ) : List Rect → Rect × ℚ → Rect × ℚ
  | [], s => s
  | p :: ps, (r, vx) =>
    if collide r p then
      horizPass dx ps
        (if 0 < dx then { r with x := p.left - r.w }
         else if dx < 0 then { r with x := p.right }
         else r, 0)
    else horizPass dx ps (r, vx)

/-- Vertical pass of `move_and_collide`: falling clamps bottom to the
platform top and sets `landed`; rising clamps top to the platform bottom;
`vy` is zeroed only inside those two branches. -/
def vertPass (dy : ℚ) : List Rect → Rect × ℚ × Bool → Rect × ℚ × Bool
  | [], s => s
  | p :: ps, (r, vy, landed) =>
    if collide r p then
      if 0 < dy then vertPass dy ps ({ r with y := p.top - r.h }, 0, true)
      else if dy < 0 then vertPass dy ps ({ r with y := p.bottom }, 0, landed)
      else vertPass dy ps (r, vy, landed)
    else vertPass dy ps (r, vy, landed)

/-- `physics.move_and_collide` (= `main.move_and_collide_player`):
axis-separated resolution, then write-back
`x := r.centerx`, `y := r.bottom`, `on_ground := landed`. -/
def moveAndCollide (e : Entity) (platforms : List Rect) (dx dy : ℚ) : Entity :=
  let s1 := horizPass dx platforms (e.rect.shiftX (pyround dx), e.vx)
  let s2 := vertPass dy platforms (s1.1.shiftY (pyround dy), e.vy, false)
  { e with
    x := (s2.1.centerx : ℚ)
    y := (s2.1.bottom : ℚ)
    vx := s1.2
    vy := s2.2.1
    on_ground := s2.2.2 }

/-- Enemy of main.py: patrols its home platform (platform-bounded variant);
its vertical position is derived from the platform top, never integrated. -/
structure MEnemy where
  platform : Rect
  x : ℚ
  y : ℚ
  vx : ℚ
  alive : Bool
deriving DecidableEq, Repr

/-- `main.Enemy.rect`: `Rect(int(x - ENEMY_W/2), platform.top - ENEMY_H,
ENEMY_W, ENEMY_H)` with `ENEMY_W = 28`, `ENEMY_H = 36`. -/
def MEnemy.rect (e : MEnemy) : Rect :=
  ⟨pytrunc (e.x - (28 : ℚ)/2), e.platform.top - 36, 28, 36⟩

/-- `main.Enemy.__init__`: stands at a given x on its platform; patrol
direction is a random choice, modelled by the `dir` argument. -/
def MEnemy.init (p : Rect) (x : ℤ) (dir : ℤ) : MEnemy :=
  ⟨p, (x : ℚ), (p.top : ℚ), 60 * (dir : ℚ), true⟩

/-- `main.Enemy.update`: dead enemies are skipped; otherwise advance by
`vx*dt` and clamp to `[platform.left + ENEMY_W/2, platform.right - ENEMY_W/2]`,
flipping `vx` on clamp. -/
def MEnemy.update (e : MEnemy) (dt : ℚ) : MEnemy :=
  if e.alive = false then e
  else
    let x1 := e.x + e.vx * dt
    let lb : ℚ := (e.platform.left : ℚ) + 14
    let rb : ℚ := (e.platform.right : ℚ) - 14
    if x1 < lb then { e with x := lb, vx := -e.vx }
    else if rb < x1 then { e with x := rb, vx := -e.vx }
    else { e with x := x1 }

/-- Enemy of enemy.py (full-physics patrol variant): a kinematic body plus
the home platform back-reference. -/
structure EEnemy where
  platform : Rect
  body : Entity
deriving DecidableEq, Repr

/-- `enemy.Enemy.update`: apply gravity (capped at `max_fall_speed`), run the
full collision resolver, reverse the patrol direction on obstruction /
fall-off / platform edge, reassign `vx = ENEMY_SPEED * desired_dir`
(`ENEMY_SPEED = 120` in enemy.py), and finally snap `y` back to the
platform top. -/
def EEnemy.update (e : EEnemy) (platforms : List Rect) (dt grav mfs : ℚ) :
    EEnemy :=
  let desired : ℤ := if 0 ≤ e.body.vx then 1 else -1
  let vy1 := min (e.body.vy + grav * dt) mfs
  let dx := e.body.vx * dt
  let dy := vy1 * dt
  let prev_x := e.body.x
  let b1 := moveAndCollide { e.body with vy := vy1 } platforms dx dy
  let moved := b1.x - prev_x
  let fallen := ¬ collidepoint e.platform b1.x ((e.platform.top : ℚ) - 1)
  let at_edge := b1.x < (e.platform.left : ℚ) + 8 ∨ (e.platform.right : ℚ) - 8 < b1.x
  let desired1 := if |moved| < |dx| * (1/2) ∨ fallen ∨ at_edge then -desired else desired
  { platform := e.platform
    body := { b1 with vx := 120 * (desired1 : ℚ), y := (e.platform.top : ℚ) } }

/-- Player state of main.py beyond the kinematic body: invulnerability
timer and health. -/
structure PState where
  body : Entity
  invuln : ℚ
  hp : ℤ
deriving DecidableEq, Repr

/-- Loop body of `main.check_player_enemy`: the player's rectangle `pr` is
computed once before the loop; dead or non-overlapping enemies are skipped;
a stomp (`vy > STOMP_VY_THRESHOLD = 120` and `pr.bottom - er.top < 14`)
kills the enemy and bounces the player (`vy := STOMP_BOUNCE_VY = -520`,
`on_ground := false`); any other overlap raises the `damaged` flag. -/
def checkPEgo (pr : Rect) :
    List MEnemy → PState → List MEnemy → Bool → Bool →
    PState × List MEnemy × Bool × Bool
  | [], p, acc, s, d => (p, acc, s, d)
  | e :: rest, p, acc, s, d =>
    if e.alive = false then checkPEgo pr rest p (acc ++ [e]) s d
    else if ¬ collide pr e.rect then checkPEgo pr rest p (acc ++ [e]) s d
    else if 120 < p.body.vy ∧ pr.bottom - e.rect.top < 14 then
      checkPEgo pr rest
        { p with body := { p.body with vy := -520, on_ground := false } }
        (acc ++ [{ e with alive := false }]) true d
    else checkPEgo pr rest p (acc ++ [e]) s true

/-- `main.check_player_enemy`: returns the updated player, the updated
enemy list, and the `(stomped, damaged)` flags. -/
def checkPlayerEnemy (p : PState) (es : List MEnemy) :
    PState × List MEnemy × Bool × Bool :=
  checkPEgo p.body.rect es p [] false false

/-- The damage block of the main loop (`if damaged and player.invuln <= 0`):
decrement health, start the invulnerability timer (`INVULN_TIME = 0.9`),
knockback `vy := -420` and `vx := -320 if move_dir >= 0 else 320`, clear
`on_ground`; at zero health reset the player to the start and the camera
to 0. Returns the new player state and camera x. -/
def applyDamage (p : PState) (move_dir : ℤ) (damaged : Bool) (ground_top : ℤ)
    (cam : ℚ) : PState × ℚ :=
  if damaged = true ∧ p.invuln ≤ 0 then
    let p1 : PState :=
      { body := { p.body with
          vy := -420
          vx := if 0 ≤ move_dir then -320 else 320
          on_ground := false }
        invuln := 9/10
        hp := p.hp - 1 }
    if p1.hp ≤ 0 then
      ({ p1 with
          hp := 3
          body := { p1.body with x := 120, y := (ground_top : ℚ), vx := 0, vy := 0 } }, 0)
    else (p1, cam)
  else (p, cam)

/-- The camera dead-zone from `Camera.__init__` with the configured window:
`Rect((960 - 240) // 2, (540 - 140) // 2, 240, 140)`. -/
def DEADZONE : Rect := ⟨360, 200, 240, 140⟩

/-- `main.Camera.update` (horizontal part; `y` is pinned to 0): shift the
camera by the target's overshoot of the dead-zone, then clamp to `x >= 0`. -/
def camUpdate (x tx : ℚ) : ℚ :=
  let sx := tx - x
  let x1 :=
    if sx < (DEADZONE.left : ℚ) then x - ((DEADZONE.left : ℚ) - sx)
    else if (DEADZONE.right : ℚ) < sx then x + (sx - (DEADZONE.right : ℚ))
    else x
  max 0 x1

/-- Configured look-ahead distance `SPAWN_AHEAD_PX`. -/
def SPAWN_AHEAD_PX : ℤ := 1400

/-- Configured despawn margin `DESPAWN_BEHIND_PX`. -/
def DESPAWN_BEHIND_PX : ℤ := 500

/-- Tile size `TILE`. -/
def TILE : ℤ := 48

/-- One bundle of random draws consumed by a generation iteration:
`gap = randint(170, 380)`, `w = randint(144, 384)`, `y = randint(180, 380)`,
`doSpawn` models `random.random() <= 0.6`, `ex = randint(left+30, right-30)`,
`dir = random.choice([-1, 1])`. -/
structure SpawnChoice where
  gap : ℤ
  w : ℤ
  y : ℤ
  doSpawn : Bool
  ex : ℤ
  dir : ℤ
deriving DecidableEq, Repr

/-- `main.spawn_next_platform`: new platform at `last_x + gap`, vertical
position clamped above the ground line by 30, height `PLATFORM_H = 18`. -/
def spawnNextPlatform (last_x ground_top : ℤ) (c : SpawnChoice) : Rect :=
  ⟨last_x + c.gap, min c.y (ground_top - 30), c.w, 18⟩

/-- `main.maybe_spawn_enemy_for_platform`: no enemy on (or below) the ground
line (`platform.y >= 540 - 3*48 - 2`), none on platforms narrower than
`4 * TILE`, otherwise an enemy with probability 0.6 at a random inset x. -/
def maybeSpawnEnemy (p : Rect) (c : SpawnChoice) : Option MEnemy :=
  if 540 - 3 * 48 - 2 ≤ p.y then none
  else if p.w < 4 * 48 then none
  else if c.doSpawn = false then none
  else some (MEnemy.init p c.ex c.dir)

/-- The `while last_x < target_right` loop of `main.ensure_content_ahead`,
with explicit fuel (`none` = fuel exhausted before the loop condition
turned false) and an oracle of random draws indexed by iteration. -/
def ensureLoop (oracle : ℕ → SpawnChoice) (ground_top target_right : ℤ) :
    ℕ → ℕ → List Rect → List MEnemy → ℤ →
    Option (List Rect × List MEnemy × ℤ)
  | 0, _, ps, es, lx =>
    if lx < target_right then none else some (ps, es, lx)
  | fuel + 1, n, ps, es, lx =>
    if lx < target_right then
      let c := oracle n
      let p := spawnNextPlatform lx ground_top c
      let es1 := match maybeSpawnEnemy p c with
                 | some e => es ++ [e]
                 | none => es
      ensureLoop oracle ground_top target_right fuel (n + 1) (ps ++ [p]) es1
        (max lx p.right)
    else some (ps, es, lx)

/-- `main.ensure_content_ahead`: spawn until `last_x` reaches
`int(cam_x) + SPAWN_AHEAD_PX`. -/
def ensureContentAhead (fuel : ℕ) (oracle : ℕ → SpawnChoice) (ps : List Rect)
    (es : List MEnemy) (last_x : ℤ) (cam_x : ℚ) (ground_top : ℤ) :
    Option (List Rect × List MEnemy × ℤ) :=
  ensureLoop oracle ground_top (pytrunc cam_x + SPAWN_AHEAD_PX) fuel 0 ps es last_x

/-- The ground-trimming step of `main.despawn_behind`: if the ground starts
behind the cutoff, slide its left edge to `int(cutoff)` and shrink the width
(floor `TILE`); the width is computed from the old right edge first. -/
def slideGround (g : Rect) (cutoff : ℚ) : Rect :=
  if (g.x : ℚ) < cutoff then
    { g with x := pytrunc cutoff, w := max (g.right - pytrunc cutoff) TILE }
  else g

/-- `main.despawn_behind`: slide the ground (index 0), drop non-ground
platforms with `right < cutoff`, drop enemies that are dead or have
`rect().right < cutoff`, where `cutoff = cam_x - DESPAWN_BEHIND_PX`.
`none` models the IndexError of `platforms[0]` on an empty list. -/
def despawnBehind (platforms : List Rect) (enemies : List MEnemy)
    (cam_x : ℚ) : Option (List Rect × List MEnemy) :=
  let cutoff : ℚ := cam_x - (DESPAWN_BEHIND_PX : ℚ)
  match platforms with
  | [] => none
  | g :: rest =>
    some (slideGround g cutoff ::
            rest.filter (fun p => decide (cutoff ≤ (p.right : ℚ))),
          enemies.filter (fun e =>
            e.alive && decide (cutoff ≤ (e.rect.right : ℚ))))

/-- Maximum of a list of integers (Python `max` on a nonempty list;
0 stands in for the error on an empty one). -/
def listMax : List ℤ → ℤ
  | [] => 0
  | [a] => a
  | a :: b :: rest => max a (listMax (b :: rest))

/-- `main.build_initial_platforms`: the ground strip
`Rect(0, 540 - 3*48, world_right, 3*48)`, three starter platforms, and the
initial frontier `last_x = max(p.right for p in platforms)`; also returns
`ground_top`. -/
def buildInitialPlatforms (world_right : ℤ) : List Rect × ℤ × ℤ :=
  let ground_top : ℤ := 540 - 3 * 48
  let platforms : List Rect :=
    [⟨0, ground_top, world_right, 3 * 48⟩,
     ⟨160, ground_top - 80, 260, 18⟩,
     ⟨520, ground_top - 150, 220, 18⟩,
     ⟨830, ground_top - 60, 180, 18⟩]
  (platforms, listMax (platforms.map Rect.right), ground_top)

/-- The ground rectangle horizontally covers the camera's visible span
`[cam_x, cam_x + WIN_W]` (`WIN_W = 960`). -/
def coversSpan (g : Rect) (cam_x : ℚ) : Prop :=
  (g.x : ℚ) ≤ cam_x ∧ cam_x + 960 ≤ (g.right : ℚ)

instance (g : Rect) (cam_x : ℚ) : Decidable (coversSpan g cam_x) := by
  unfold coversSpan; infer_instance

/-! ### Arithmetic facts about the Python primitives -/

theorem pytrunc_intCast (n : ℤ) : pytrunc (n : ℚ) = n := by
  unfold pytrunc
  split
  · exact Int.floor_intCast n
  · exact Int.ceil_intCast n

theorem pytrunc_le {q : ℚ} {n : ℤ} (h : q ≤ (n : ℚ)) : pytrunc q ≤ n := by
  unfold pytrunc
  split
  · calc ⌊q⌋ ≤ ⌊(n : ℚ)⌋ := Int.floor_le_floor h
    _ = n := Int.floor_intCast n
  · exact Int.ceil_le.mpr h

theorem le_pytrunc_of_lt {n : ℤ} {q : ℚ} (h : (n : ℚ) < q) : n ≤ pytrunc q := by
  unfold pytrunc
  split
  · exact Int.le_floor.mpr (le_of_lt h)
  · have h2 : (n : ℚ) < (⌈q⌉ : ℚ) := lt_of_lt_of_le h (Int.le_ceil q)
    exact le_of_lt (by exact_mod_cast h2)

theorem pytrunc_lt_add_one (q : ℚ) : (pytrunc q : ℚ) < q + 1 := by
  unfold pytrunc
  split
  · have := Int.floor_le q
    linarith
  · have := Int.ceil_lt_add_one q
    linarith

theorem pyround_zero : pyround 0 = 0 := by
  simp [pyround]

theorem shiftX_zero (r : Rect) : r.shiftX 0 = r := by
  simp [Rect.shiftX]

theorem shiftY_zero (r : Rect) : r.shiftY 0 = r := by
  simp [Rect.shiftY]

/-- With `dx = 0` neither horizontal clamp fires: the rectangle passes
through the horizontal pass unchanged (only `vx` may be zeroed). -/
theorem horizPass_fst_zero (ps : List Rect) :
    ∀ (r : Rect) (vx : ℚ), (horizPass 0 ps (r, vx)).1 = r := by
  induction ps with
  | nil => intro r vx; rfl
  | cons p ps ih =>
    intro r vx
    have h0 : ¬ ((0 : ℚ) < 0) := lt_irrefl 0
    by_cases hc : collide r p
    · simp only [horizPass, if_pos hc, if_neg h0]
      exact ih r 0
    · simp only [horizPass, if_neg hc]
      exact ih r vx

/-- With `dy = 0` the vertical pass is the identity. -/
theorem vertPass_zero (ps : List Rect) :
    ∀ (s : Rect × ℚ × Bool), vertPass 0 ps s = s := by
  induction ps with
  | nil => intro s; rfl
  | cons p ps ih =>
    intro s
    obtain ⟨r, vy, landed⟩ := s
    have h0 : ¬ ((0 : ℚ) < 0) := lt_irrefl 0
    by_cases hc : collide r p
    · simp only [vertPass, if_pos hc, if_neg h0]
      exact ih _
    · simp only [vertPass, if_neg hc]
      exact ih _

/-- For an even width, the write-back `x := centerx, y := bottom`
round-trips: re-deriving the body rectangle recovers the resolver's
rectangle exactly. -/
theorem rect_writeback_even (r : Rect) (hw : r.w % 2 = 0) :
    bodyRect (r.centerx : ℚ) (r.bottom : ℚ) r.w r.h = r := by
  obtain ⟨k, hk⟩ : (2 : ℤ) ∣ r.w := Int.dvd_of_emod_eq_zero hw
  obtain ⟨rx, ry, rw, rh⟩ := r
  simp only at hk
  subst hk
  unfold bodyRect Rect.centerx Rect.bottom
  have h1 : ((rx + Int.fdiv (2 * k) 2 : ℤ) : ℚ) - ((2 * k : ℤ) : ℚ) / 2
      = ((rx : ℤ) : ℚ) := by
    rw [Int.mul_fdiv_cancel_left _ (by norm_num : (2:ℤ) ≠ 0)]
    push_cast
    ring
  have h2 : ((ry + rh : ℤ) : ℚ) - ((rh : ℤ) : ℚ) = ((ry : ℤ) : ℚ) := by
    push_cast
    ring
  rw [h1, h2, pytrunc_intCast, pytrunc_intCast]

/-- If the generation loop of `ensure_content_ahead` returns (fuel did not
run out), the final frontier is at least the target. -/
theorem ensureLoop_some_ge (oracle : ℕ → SpawnChoice) (gt tr : ℤ) :
    ∀ (fuel n : ℕ) (ps : List Rect) (es : List MEnemy) (lx : ℤ)
      (out : List Rect × List MEnemy × ℤ),
      ensureLoop oracle gt tr fuel n ps es lx = some out → tr ≤ out.2.2 := by
  intro fuel
  induction fuel with
  | zero =>
    intro n ps es lx out h
    simp only [ensureLoop] at h
    split at h
    · exact Option.noConfusion h
    · obtain rfl : (ps, es, lx) = out := Option.some.inj h
      show tr ≤ lx
      omega
  | succ f ih =>
    intro n ps es lx out h
    simp only [ensureLoop] at h
    split at h
    · exact ih _ _ _ _ _ h
    · obtain rfl : (ps, es, lx) = out := Option.some.inj h
      show tr ≤ lx
      omega

/-- The generation loop only appends platforms: the incoming list is a
prefix of the outgoing one (in particular the ground at index 0 is
untouched by generation). -/
theorem ensureLoop_append (oracle : ℕ → SpawnChoice) (gt tr : ℤ) :
    ∀ (fuel n : ℕ) (ps : List Rect) (es : List MEnemy) (lx : ℤ)
      (out : List Rect × List MEnemy × ℤ),
      ensureLoop oracle gt tr fuel n ps es lx = some out →
      ∃ new, out.1 = ps ++ new := by
  intro fuel
  induction fuel with
  | zero =>
    intro n ps es lx out h
    simp only [ensureLoop] at h
    split at h
    · exact Option.noConfusion h
    · obtain rfl : (ps, es, lx) = out := Option.some.inj h
      exact ⟨[], by simp⟩
  | succ f ih =>
    intro n ps es lx out h
    simp only [ensureLoop] at h
    split at h
    · obtain ⟨new, hnew⟩ := ih _ _ _ _ _ h
      exact ⟨_ :: new, by simpa using hnew⟩
    · obtain rfl : (ps, es, lx) = out := Option.some.inj h
      exact ⟨[], by simp⟩

/- The core rational arithmetic operations are shipped irreducible, which
blocks `decide` on concrete states; re-marking them semireducible only
affects elaboration-time unfolding (the kernel never honors reducibility
hints), so proofs remain checked as usual. -/
set_option allowUnsafeReducibility true

attribute [semireducible] Rat.sub Rat.add Rat.mul Rat.div Rat.neg Rat.inv

/-! ### Claims -/

/-- Claim C1: for every body and every platform `p`, resolving against the
platform set containing only `p` with a purely downward displacement
(`dx = 0`, `dy > 0`) whose displaced rectangle lands in `p` (it would end
below `p.top` while overlapping `p`) leaves the body with rectangle bottom
equal to `p.top`, `vy = 0`, and `on_ground = true`. -/
theorem c1_downward_resolution (e : Entity) (p : Rect) (dy : ℚ)
    (hdy : 0 < dy)
    (hc : collide (e.rect.shiftY (pyround dy)) p) :
    (moveAndCollide e [p] 0 dy).y = (p.top : ℚ) ∧
    (moveAndCollide e [p] 0 dy).vy = 0 ∧
    (moveAndCollide e [p] 0 dy).on_ground = true ∧
    ((moveAndCollide e [p] 0 dy).rect).bottom = p.top := by
  have hs1 : (horizPass 0 [p] (Rect.shiftX e.rect (pyround 0), e.vx)).1
      = e.rect := by
    rw [pyround_zero, shiftX_zero]
    exact horizPass_fst_zero [p] e.rect e.vx
  have hv : vertPass dy [p] (e.rect.shiftY (pyround dy), e.vy, false) =
      ({ e.rect.shiftY (pyround dy) with
          y := p.top - (e.rect.shiftY (pyround dy)).h }, 0, true) := by
    simp only [vertPass, if_pos hc, if_pos hdy]
  have key : moveAndCollide e [p] 0 dy =
      { e with
        x := (({ e.rect.shiftY (pyround dy) with
            y := p.top - (e.rect.shiftY (pyround dy)).h } : Rect).centerx : ℚ)
        y := (({ e.rect.shiftY (pyround dy) with
            y := p.top - (e.rect.shiftY (pyround dy)).h } : Rect).bottom : ℚ)
        vx := (horizPass 0 [p] (Rect.shiftX e.rect (pyround 0), e.vx)).2
        vy := 0
        on_ground := true } := by
    simp only [moveAndCollide, hs1, hv]
  have hy : (moveAndCollide e [p] 0 dy).y = (p.top : ℚ) := by
    rw [key]
    show (({ e.rect.shiftY (pyround dy) with
        y := p.top - (e.rect.shiftY (pyround dy)).h } : Rect).bottom : ℚ)
        = (p.top : ℚ)
    simp only [Rect.bottom]
    push_cast
    ring
  have hh : (moveAndCollide e [p] 0 dy).h = e.h := by rw [key]
  refine ⟨hy, by rw [key], by rw [key], ?_⟩
  show ((moveAndCollide e [p] 0 dy).rect).bottom = p.top
  simp only [Entity.rect, bodyRect, Rect.bottom]
  rw [hy, hh]
  have harg : (p.top : ℚ) - ((e.h : ℤ) : ℚ) = ((p.top - e.h : ℤ) : ℚ) := by
    push_cast
    ring
  rw [harg, pytrunc_intCast]
  omega

/-- Witness for C1: a concrete body falling 10 units onto a platform with
top edge 100 lands exactly on it. -/
theorem c1_downward_resolution_witness :
    (moveAndCollide ⟨50, 95, 3, 7, 40, 30, false⟩ [⟨0, 100, 200, 20⟩] 0 10).y
        = (((⟨0, 100, 200, 20⟩ : Rect)).top : ℚ) ∧
    (moveAndCollide ⟨50, 95, 3, 7, 40, 30, false⟩ [⟨0, 100, 200, 20⟩] 0 10).vy = 0 ∧
    (moveAndCollide ⟨50, 95, 3, 7, 40, 30, false⟩ [⟨0, 100, 200, 20⟩] 0 10).on_ground
        = true ∧
    ((moveAndCollide ⟨50, 95, 3, 7, 40, 30, false⟩ [⟨0, 100, 200, 20⟩] 0 10).rect).bottom
        = (⟨0, 100, 200, 20⟩ : Rect).top :=
  c1_downward_resolution ⟨50, 95, 3, 7, 40, 30, false⟩ ⟨0, 100, 200, 20⟩ 10
    (by norm_num) (by decide)

/-- Claim C2 counterexample: the derived rectangle does not anchor exactly
for every floating-point position and every size. Python `int()` truncation
breaks the bottom anchor for a fractional `y` (`y = 1/2` gives bottom `1`),
and integer `centerx` breaks the horizontal anchor for an odd width
(`x = 1`, `w = 1` gives centerx `0`). -/
theorem c2_rect_anchor_counterexample :
    ((bodyRect 0 (1/2) 2 1).bottom : ℚ) ≠ (1/2 : ℚ) ∧
    ((bodyRect 1 0 1 1).centerx : ℚ) ≠ (1 : ℚ) := by
  decide

/-- Claim C2, amended: `rect()` returns the rectangle with
`left = x - width/2`, `top = y - height` and size `(width, height)`, and the
derived rectangle's bottom edge equals `y` and horizontal center equals `x`,
whenever `x` and `y` are integer-valued and the width is even (for
fractional coordinates or odd widths the `int()` truncation in the
derivation breaks the exact anchors). -/
theorem c2_rect_anchor (x y k h : ℤ) :
    (bodyRect (x : ℚ) (y : ℚ) (2 * k) h).left = x - k ∧
    (bodyRect (x : ℚ) (y : ℚ) (2 * k) h).top = y - h ∧
    (bodyRect (x : ℚ) (y : ℚ) (2 * k) h).w = 2 * k ∧
    (bodyRect (x : ℚ) (y : ℚ) (2 * k) h).h = h ∧
    (bodyRect (x : ℚ) (y : ℚ) (2 * k) h).bottom = y ∧
    (bodyRect (x : ℚ) (y : ℚ) (2 * k) h).centerx = x := by
  have h1 : (x : ℚ) - ((2 * k : ℤ) : ℚ) / 2 = ((x - k : ℤ) : ℚ) := by
    push_cast
    ring
  have h2 : (y : ℚ) - ((h : ℤ) : ℚ) = ((y - h : ℤ) : ℚ) := by
    push_cast
    ring
  refine ⟨?_, ?_, rfl, rfl, ?_, ?_⟩
  · show pytrunc ((x : ℚ) - ((2 * k : ℤ) : ℚ) / 2) = x - k
    rw [h1, pytrunc_intCast]
  · show pytrunc ((y : ℚ) - ((h : ℤ) : ℚ)) = y - h
    rw [h2, pytrunc_intCast]
  · show pytrunc ((y : ℚ) - ((h : ℤ) : ℚ)) + h = y
    rw [h2, pytrunc_intCast]
    omega
  · show pytrunc ((x : ℚ) - ((2 * k : ℤ) : ℚ) / 2) + Int.fdiv (2 * k) 2 = x
    rw [h1, pytrunc_intCast, Int.mul_fdiv_cancel_left _ (by norm_num : (2:ℤ) ≠ 0)]
    omega

/-- Claim C3 counterexample: an odd-width body (`w = 3`) pushed 2 units
rightward into a wall of thickness 5 is clamped, but after the write-back
through the integer center the re-derived rectangle's right edge is 9, not
the wall's left edge 10 — so the claim fails for some bodies even with
`|dx|` within the wall thickness. -/
theorem c3_wall_clamp_counterexample :
    collide ((Entity.rect ⟨9, 5, 1, 0, 3, 2, true⟩).shiftX (pyround 2))
        ⟨10, 0, 5, 10⟩ ∧
    |(2 : ℚ)| ≤ (((⟨10, 0, 5, 10⟩ : Rect)).w : ℚ) ∧
    (0 : ℚ) < 2 ∧
    ((moveAndCollide ⟨9, 5, 1, 0, 3, 2, true⟩ [⟨10, 0, 5, 10⟩] 2 0).rect).right
        ≠ (⟨10, 0, 5, 10⟩ : Rect).left := by
  decide

/-- Claim C3, amended: for a horizontal-only displacement (`dy = 0`) of a
body of even width into a single wall, with `|dx|` not exceeding the wall's
thickness, the resolved body has `vx = 0` and its rectangle's leading edge
(right if `dx > 0`, left if `dx < 0`) equals the wall's trailing edge (the
wall's left, resp. right, edge). For odd widths the integer-center
write-back shifts the re-derived rectangle one unit left, so evenness is
required. -/
theorem c3_wall_clamp (e : Entity) (wall : Rect) (dx : ℚ)
    (heven : e.w % 2 = 0)
    (hmag : |dx| ≤ (wall.w : ℚ))
    (hc : collide (e.rect.shiftX (pyround dx)) wall) :
    (moveAndCollide e [wall] dx 0).vx = 0 ∧
    (0 < dx → ((moveAndCollide e [wall] dx 0).rect).right = wall.left) ∧
    (dx < 0 → ((moveAndCollide e [wall] dx 0).rect).left = wall.right) := by
  set r2 : Rect :=
    (if 0 < dx then
      { e.rect.shiftX (pyround dx) with
          x := wall.left - (e.rect.shiftX (pyround dx)).w }
     else if dx < 0 then { e.rect.shiftX (pyround dx) with x := wall.right }
     else e.rect.shiftX (pyround dx)) with hr2
  have hh : horizPass dx [wall] (e.rect.shiftX (pyround dx), e.vx) = (r2, 0) := by
    rw [hr2]
    simp only [horizPass, if_pos hc]
  have key : moveAndCollide e [wall] dx 0 =
      { e with
        x := (r2.centerx : ℚ)
        y := (r2.bottom : ℚ)
        vx := 0
        vy := e.vy
        on_ground := false } := by
    simp only [moveAndCollide, hh, pyround_zero, shiftY_zero, vertPass_zero]
  have hw2 : r2.w = e.w := by
    rw [hr2]
    split_ifs <;> simp [Rect.shiftX, Entity.rect, bodyRect]
  have hh2 : r2.h = e.h := by
    rw [hr2]
    split_ifs <;> simp [Rect.shiftX, Entity.rect, bodyRect]
  have herect : (moveAndCollide e [wall] dx 0).rect = r2 := by
    rw [key]
    show bodyRect (r2.centerx : ℚ) (r2.bottom : ℚ) e.w e.h = r2
    rw [← hw2, ← hh2]
    exact rect_writeback_even r2 (by rw [hw2]; exact heven)
  refine ⟨by rw [key], ?_, ?_⟩
  · intro hdx
    rw [herect, hr2, if_pos hdx]
    simp only [Rect.right, Rect.left]
    omega
  · intro hdx
    rw [herect, hr2, if_neg (asymm hdx), if_pos hdx]
    simp [Rect.left]

/-- Witness for C3 (amended): an even-width body (`w = 4`) pushed 2 units
rightward into the wall ends flush against it with `vx = 0`. -/
theorem c3_wall_clamp_witness :
    (moveAndCollide ⟨9, 5, 1, 0, 4, 2, true⟩ [⟨10, 0, 5, 10⟩] 2 0).vx = 0 ∧
    ((0 : ℚ) < 2 →
      ((moveAndCollide ⟨9, 5, 1, 0, 4, 2, true⟩ [⟨10, 0, 5, 10⟩] 2 0).rect).right
        = (⟨10, 0, 5, 10⟩ : Rect).left) ∧
    ((2 : ℚ) < 0 →
      ((moveAndCollide ⟨9, 5, 1, 0, 4, 2, true⟩ [⟨10, 0, 5, 10⟩] 2 0).rect).left
        = (⟨10, 0, 5, 10⟩ : Rect).right) :=
  c3_wall_clamp ⟨9, 5, 1, 0, 4, 2, true⟩ ⟨10, 0, 5, 10⟩ 2 (by decide)
    (by norm_num) (by decide)

/-- Claim C9: a single camera update moves `x` forward (never backward) when
the target is past the dead-zone's right edge — so `x` is non-decreasing
across any sequence of such updates —, leaves `x` unchanged while the
target's screen offset stays inside the dead-zone (given the invariant
`x >= 0`, established by the clamp itself), and always ends with `x >= 0`. -/
theorem c9_camera_tracking (x tx : ℚ) :
    ((DEADZONE.right : ℚ) < tx - x → x ≤ camUpdate x tx) ∧
    ((DEADZONE.left : ℚ) ≤ tx - x → tx - x ≤ (DEADZONE.right : ℚ) → 0 ≤ x →
      camUpdate x tx = x) ∧
    0 ≤ camUpdate x tx := by
  have hlr : (DEADZONE.left : ℚ) ≤ (DEADZONE.right : ℚ) := by
    norm_num [DEADZONE, Rect.left, Rect.right]
  refine ⟨?_, ?_, ?_⟩
  · intro h
    simp only [camUpdate]
    rw [if_neg (by linarith), if_pos h]
    calc x ≤ x + (tx - x - (DEADZONE.right : ℚ)) := by linarith
      _ ≤ max 0 (x + (tx - x - (DEADZONE.right : ℚ))) := le_max_right _ _
  · intro h1 h2 h3
    simp only [camUpdate]
    rw [if_neg (not_lt.mpr h1), if_neg (not_lt.mpr h2)]
    exact max_eq_right h3
  · simp only [camUpdate]
    exact le_max_left 0 _

/-- Witness for C9: a target far right of the dead-zone keeps the camera
non-decreasing from 0, and a target inside the dead-zone (offset 400 from a
camera at 100) leaves the camera unchanged. -/
theorem c9_camera_tracking_witness :
    (0 : ℚ) ≤ camUpdate 0 700 ∧ camUpdate 100 500 = 100 :=
  ⟨(c9_camera_tracking 0 700).1
      (by norm_num [DEADZONE, Rect.right]),
    (c9_camera_tracking 100 500).2.1
      (by norm_num [DEADZONE, Rect.left])
      (by norm_num [DEADZONE, Rect.right])
      (by norm_num)⟩

/-- Claim C10: in the full-physics enemy variant (enemy.py), after every
call to `Enemy.update` the enemy's `y` equals its home platform's top edge:
gravity and the full collision resolver do run, but the final assignment
snaps `y` back to `platform.top`, for every platform list, `dt`, gravity
and maximum fall speed (the home platform itself is also unchanged). -/
theorem c10_enemy_y_snap (e : EEnemy) (platforms : List Rect)
    (dt grav mfs : ℚ) :
    (EEnemy.update e platforms dt grav mfs).body.y = (e.platform.top : ℚ) ∧
    (EEnemy.update e platforms dt grav mfs).platform = e.platform :=
  ⟨rfl, rfl⟩

/-- Claim C4: after every completed run of the generation pass the frontier
watermark is at least `camera.x + SPAWN_AHEAD_PX` (camera positions are
integer-valued in the game: the camera writes `target_x - const` for the
integer-valued player `x`, or clamps at 0); and after every despawn pass the
ground (index 0) is retained (as the slid ground) and every retained
non-ground platform has `right >= camera.x - DESPAWN_BEHIND_PX`. -/
theorem c4_streamer_invariant :
    (∀ (fuel : ℕ) (oracle : ℕ → SpawnChoice) (ps : List Rect)
        (es : List MEnemy) (lx : ℤ) (c : ℤ) (gt : ℤ)
        (out : List Rect × List MEnemy × ℤ),
      ensureContentAhead fuel oracle ps es lx (c : ℚ) gt = some out →
      (c : ℚ) + (SPAWN_AHEAD_PX : ℚ) ≤ (out.2.2 : ℚ)) ∧
    (∀ (g : Rect) (ps : List Rect) (es : List MEnemy) (c : ℚ)
        (out : List Rect × List MEnemy),
      despawnBehind (g :: ps) es c = some out →
      out.1.head? = some (slideGround g (c - (DESPAWN_BEHIND_PX : ℚ))) ∧
      ∀ p ∈ out.1.tail, c - (DESPAWN_BEHIND_PX : ℚ) ≤ (p.right : ℚ)) := by
  constructor
  · intro fuel oracle ps es lx c gt out h
    have hge := ensureLoop_some_ge oracle gt (pytrunc (c : ℚ) + SPAWN_AHEAD_PX)
      fuel 0 ps es lx out h
    rw [pytrunc_intCast] at hge
    exact_mod_cast hge
  · intro g ps es c out h
    simp only [despawnBehind] at h
    obtain rfl : (_, _) = out := Option.some.inj h
    refine ⟨rfl, ?_⟩
    intro p hp
    simp only [List.tail_cons] at hp
    rw [List.mem_filter] at hp
    exact of_decide_eq_true hp.2

/-- Witness for C4: a concrete generation run (constant random draws,
camera at 0) ends with frontier 1628 ≥ 0 + 1400, and a concrete despawn run
at camera 0 keeps the ground at index 0 and only platforms right of the
cutoff. -/
theorem c4_streamer_invariant_witness :
    (((0 : ℤ) : ℚ) + (SPAWN_AHEAD_PX : ℚ)
        ≤ (((⟨[⟨1170, 200, 144, 18⟩, ⟨1484, 200, 144, 18⟩], [], 1628⟩ :
              List Rect × List MEnemy × ℤ)).2.2 : ℚ)) ∧
    (((⟨[⟨0, 396, 3000, 144⟩, ⟨160, 316, 260, 18⟩], []⟩ :
        List Rect × List MEnemy)).1.head?
      = some (slideGround ⟨0, 396, 3000, 144⟩ ((0 : ℚ) - (DESPAWN_BEHIND_PX : ℚ)))) ∧
    ((0 : ℚ) - (DESPAWN_BEHIND_PX : ℚ)
        ≤ (((⟨160, 316, 260, 18⟩ : Rect)).right : ℚ)) := by
  have h1 := c4_streamer_invariant.1 5 (fun _ => ⟨170, 144, 200, false, 0, 1⟩)
    [] [] 1000 0 396 ⟨[⟨1170, 200, 144, 18⟩, ⟨1484, 200, 144, 18⟩], [], 1628⟩
    (by decide)
  have h2 := c4_streamer_invariant.2 ⟨0, 396, 3000, 144⟩ [⟨160, 316, 260, 18⟩]
    [] 0 ⟨[⟨0, 396, 3000, 144⟩, ⟨160, 316, 260, 18⟩], []⟩ (by decide)
  exact ⟨h1, h2.1, h2.2 ⟨160, 316, 260, 18⟩ (by decide)⟩

/-- Claim C5 counterexample: the ground does cover the visible span at the
start, but once the camera passes the initial ground extent (right edge
3000) the despawn pass leaves the ground as a 48-wide strip ending at
`cutoff + TILE`, behind the camera: after despawn passes at camera 2000 and
then 4000, the ground is `[3500, 3548]` while the visible span is
`[4000, 4960]` — the ground no longer covers it. -/
theorem c5_ground_strip_counterexample :
    despawnBehind (buildInitialPlatforms 3000).1 [] 2000
      = some ([⟨1500, 396, 1500, 144⟩], []) ∧
    despawnBehind [⟨1500, 396, 1500, 144⟩] [] 4000
      = some ([⟨3500, 396, 48, 144⟩], []) ∧
    ¬ coversSpan ⟨3500, 396, 48, 144⟩ 4000 := by
  refine ⟨by decide, by decide, by decide⟩

/-- Claim C5, amended: the ground strip is never removed by the despawn pass
(it is returned, slid, at index 0), generation never touches it (the
generation loop only appends), and when the cutoff passes the ground's left
edge the slide sets `left = int(cutoff)` and
`width = max(right - int(cutoff), TILE)`, so the ground stays bounded
(width at most `max(old width, TILE)`, at least `TILE`) with right edge
`max(old right, int(cutoff) + TILE)`. But the ground's right edge is never
advanced ahead of the camera: it covers the visible span
`[camera.x, camera.x + 960]` only while `camera.x + 960` does not exceed
that right edge — once the camera passes the initial ground extent, the
visible span is no longer covered. -/
theorem c5_ground_strip :
    (∀ (g : Rect) (ps : List Rect) (es : List MEnemy) (c : ℚ)
        (out : List Rect × List MEnemy),
      despawnBehind (g :: ps) es c = some out →
      out.1.head? = some (slideGround g (c - (DESPAWN_BEHIND_PX : ℚ)))) ∧
    (∀ (oracle : ℕ → SpawnChoice) (gt tr : ℤ) (fuel n : ℕ) (ps : List Rect)
        (es : List MEnemy) (lx : ℤ) (out : List Rect × List MEnemy × ℤ),
      ensureLoop oracle gt tr fuel n ps es lx = some out → ps ≠ [] →
      out.1.head? = ps.head?) ∧
    (∀ (g : Rect) (c : ℚ), 0 ≤ c → (g.x : ℚ) < c - (DESPAWN_BEHIND_PX : ℚ) →
      (slideGround g (c - (DESPAWN_BEHIND_PX : ℚ))).x
          = pytrunc (c - (DESPAWN_BEHIND_PX : ℚ)) ∧
      (slideGround g (c - (DESPAWN_BEHIND_PX : ℚ))).w
          = max (g.right - pytrunc (c - (DESPAWN_BEHIND_PX : ℚ))) TILE ∧
      TILE ≤ (slideGround g (c - (DESPAWN_BEHIND_PX : ℚ))).w ∧
      (slideGround g (c - (DESPAWN_BEHIND_PX : ℚ))).w ≤ max g.w TILE ∧
      (slideGround g (c - (DESPAWN_BEHIND_PX : ℚ))).right
          = max g.right (pytrunc (c - (DESPAWN_BEHIND_PX : ℚ)) + TILE) ∧
      ((slideGround g (c - (DESPAWN_BEHIND_PX : ℚ))).x : ℚ) ≤ c ∧
      (coversSpan (slideGround g (c - (DESPAWN_BEHIND_PX : ℚ))) c ↔
        c + 960 ≤ ((slideGround g (c - (DESPAWN_BEHIND_PX : ℚ))).right : ℚ))) := by
  refine ⟨?_, ?_, ?_⟩
  · intro g ps es c out h
    simp only [despawnBehind] at h
    obtain rfl : (_, _) = out := Option.some.inj h
    rfl
  · intro oracle gt tr fuel n ps es lx out h hne
    obtain ⟨new, hnew⟩ := ensureLoop_append oracle gt tr fuel n ps es lx out h
    rw [hnew]
    cases ps with
    | nil => exact absurd rfl hne
    | cons a t => rfl
  · intro g c hc hslid
    have hx : (slideGround g (c - (DESPAWN_BEHIND_PX : ℚ))).x
        = pytrunc (c - (DESPAWN_BEHIND_PX : ℚ)) := by
      rw [slideGround, if_pos hslid]
    have hw : (slideGround g (c - (DESPAWN_BEHIND_PX : ℚ))).w
        = max (g.right - pytrunc (c - (DESPAWN_BEHIND_PX : ℚ))) TILE := by
      rw [slideGround, if_pos hslid]
    have hgxle : g.x ≤ pytrunc (c - (DESPAWN_BEHIND_PX : ℚ)) :=
      le_pytrunc_of_lt hslid
    have hxc : ((slideGround g (c - (DESPAWN_BEHIND_PX : ℚ))).x : ℚ) ≤ c := by
      rw [hx]
      have h1 := pytrunc_lt_add_one (c - (DESPAWN_BEHIND_PX : ℚ))
      have h2 : (1 : ℚ) ≤ (DESPAWN_BEHIND_PX : ℚ) := by
        norm_num [DESPAWN_BEHIND_PX]
      linarith
    have hright : (slideGround g (c - (DESPAWN_BEHIND_PX : ℚ))).right
        = max g.right (pytrunc (c - (DESPAWN_BEHIND_PX : ℚ)) + TILE) := by
      simp only [Rect.right, hx, hw]
      omega
    refine ⟨hx, hw, ?_, ?_, hright, hxc, ?_⟩
    · rw [hw]
      exact le_max_right _ _
    · rw [hw]
      simp only [Rect.right] at hgxle ⊢
      omega
    · unfold coversSpan
      exact and_iff_right hxc

/-- Witness for C5 (amended): a concrete despawn at camera 1000 returns the
slid ground at index 0; a concrete generation run leaves the ground at the
head; and the slide characterization holds concretely for the initial
ground at camera 4000. -/
theorem c5_ground_strip_witness :
    (([(⟨500, 396, 2500, 144⟩ : Rect)] : List Rect).head?
        = some (slideGround ⟨0, 396, 3000, 144⟩
            ((1000 : ℚ) - (DESPAWN_BEHIND_PX : ℚ)))) ∧
    ((⟨[⟨0, 396, 3000, 144⟩], [], 2000⟩ : List Rect × List MEnemy × ℤ).1.head?
        = ([(⟨0, 396, 3000, 144⟩ : Rect)] : List Rect).head?) ∧
    ((slideGround ⟨0, 396, 3000, 144⟩ ((4000 : ℚ) - (DESPAWN_BEHIND_PX : ℚ))).x
        = pytrunc ((4000 : ℚ) - (DESPAWN_BEHIND_PX : ℚ)) ∧
      (slideGround ⟨0, 396, 3000, 144⟩ ((4000 : ℚ) - (DESPAWN_BEHIND_PX : ℚ))).w
        = max ((⟨0, 396, 3000, 144⟩ : Rect).right
            - pytrunc ((4000 : ℚ) - (DESPAWN_BEHIND_PX : ℚ))) TILE ∧
      TILE ≤ (slideGround ⟨0, 396, 3000, 144⟩
          ((4000 : ℚ) - (DESPAWN_BEHIND_PX : ℚ))).w ∧
      (slideGround ⟨0, 396, 3000, 144⟩ ((4000 : ℚ) - (DESPAWN_BEHIND_PX : ℚ))).w
        ≤ max (⟨0, 396, 3000, 144⟩ : Rect).w TILE ∧
      (slideGround ⟨0, 396, 3000, 144⟩
          ((4000 : ℚ) - (DESPAWN_BEHIND_PX : ℚ))).right
        = max (⟨0, 396, 3000, 144⟩ : Rect).right
            (pytrunc ((4000 : ℚ) - (DESPAWN_BEHIND_PX : ℚ)) + TILE) ∧
      ((slideGround ⟨0, 396, 3000, 144⟩
          ((4000 : ℚ) - (DESPAWN_BEHIND_PX : ℚ))).x : ℚ) ≤ 4000 ∧
      (coversSpan (slideGround ⟨0, 396, 3000, 144⟩
          ((4000 : ℚ) - (DESPAWN_BEHIND_PX : ℚ))) 4000 ↔
        (4000 : ℚ) + 960 ≤ ((slideGround ⟨0, 396, 3000, 144⟩
            ((4000 : ℚ) - (DESPAWN_BEHIND_PX : ℚ))).right : ℚ))) :=
  ⟨c5_ground_strip.1 ⟨0, 396, 3000, 144⟩ [] [] 1000
      ⟨[⟨500, 396, 2500, 144⟩], []⟩ (by decide),
    c5_ground_strip.2.1 (fun _ => ⟨170, 144, 200, false, 0, 1⟩) 396 1400 1 0
      [⟨0, 396, 3000, 144⟩] [] 2000 ⟨[⟨0, 396, 3000, 144⟩], [], 2000⟩
      (by decide) (by decide),
    c5_ground_strip.2.2 ⟨0, 396, 3000, 144⟩ 4000 (by norm_num)
      (by norm_num [DESPAWN_BEHIND_PX])⟩

/-- A freshly spawned enemy (`randint(left+30, right-30)` guarantees the
inset) starts on its platform within the patrol clamp bound. -/
theorem maybeSpawnEnemy_bound (p : Rect) (c : SpawnChoice) (en : MEnemy)
    (hx : (c.ex : ℚ) ≤ (p.right : ℚ) - 30)
    (h : maybeSpawnEnemy p c = some en) :
    en.platform = p ∧ en.x ≤ (en.platform.right : ℚ) - 14 := by
  unfold maybeSpawnEnemy at h
  split_ifs at h
  obtain rfl : MEnemy.init p c.ex c.dir = en := Option.some.inj h
  refine ⟨rfl, ?_⟩
  show (c.ex : ℚ) ≤ (p.right : ℚ) - 14
  linarith

/-- `main.Enemy.update` keeps a living enemy within the patrol clamp bound
(for the platforms that can host enemies, which are at least `4 * TILE`
wide, the clamp interval is nonempty), and never changes the home platform
or the alive flag. -/
theorem menemy_update_bound (e : MEnemy) (dt : ℚ)
    (hw : 28 ≤ e.platform.w)
    (hx : e.x ≤ (e.platform.right : ℚ) - 14) :
    (MEnemy.update e dt).platform = e.platform ∧
    (MEnemy.update e dt).alive = e.alive ∧
    (MEnemy.update e dt).x ≤ ((MEnemy.update e dt).platform.right : ℚ) - 14 := by
  simp only [MEnemy.update]
  have hlr : (e.platform.left : ℚ) + 14 ≤ (e.platform.right : ℚ) - 14 := by
    simp only [Rect.left, Rect.right]
    push_cast
    linarith [(by exact_mod_cast hw : (28 : ℚ) ≤ (e.platform.w : ℚ))]
  split_ifs with h1 h2 h3
  · exact ⟨rfl, rfl, hx⟩
  · exact ⟨rfl, rfl, hlr⟩
  · exact ⟨rfl, rfl, le_refl _⟩
  · exact ⟨rfl, rfl, le_of_not_lt h3⟩

/-- Claim C6: after the despawn pass, every retained enemy is alive and its
home platform is retained in the platform list: an enemy is kept only if
`rect().right >= cutoff`, its rectangle never extends past its platform's
right edge (patrol bound, established at spawn and preserved by update),
hence the platform also passes the `right >= cutoff` filter — an enemy
whose platform is removed is removed in the same pass. -/
theorem c6_no_dangling_enemy (g : Rect) (ps : List Rect) (es : List MEnemy)
    (c : ℚ) (out : List Rect × List MEnemy)
    (hinv : ∀ e ∈ es, e.platform ∈ ps ∧ e.x ≤ (e.platform.right : ℚ) - 14)
    (h : despawnBehind (g :: ps) es c = some out) :
    ∀ e ∈ out.2, e.alive = true ∧ e.platform ∈ out.1 := by
  simp only [despawnBehind] at h
  obtain rfl : (_, _) = out := Option.some.inj h
  intro e he
  rw [List.mem_filter] at he
  obtain ⟨hmem, hpred⟩ := he
  rw [Bool.and_eq_true] at hpred
  obtain ⟨halive, hright⟩ := hpred
  have hright2 : c - (DESPAWN_BEHIND_PX : ℚ) ≤ (e.rect.right : ℚ) :=
    of_decide_eq_true hright
  obtain ⟨hplat, hx⟩ := hinv e hmem
  refine ⟨halive, ?_⟩
  have harg : e.x - (28 : ℚ) / 2 ≤ ((e.platform.right - 28 : ℤ) : ℚ) := by
    push_cast
    linarith
  have hrr : e.rect.right ≤ e.platform.right := by
    have h2 := pytrunc_le harg
    simp only [Rect.right] at h2
    simp only [MEnemy.rect, Rect.right]
    omega
  have hpr : c - (DESPAWN_BEHIND_PX : ℚ) ≤ (e.platform.right : ℚ) :=
    le_trans hright2 (by exact_mod_cast hrr)
  exact List.mem_cons_of_mem _
    (List.mem_filter.mpr ⟨hplat, decide_eq_true hpr⟩)

/-- Witness for C6: a concrete world (one starter platform hosting one
enemy) despawned at camera 0 keeps the enemy alive with its platform
present. -/
theorem c6_no_dangling_enemy_witness :
    (⟨⟨160, 316, 260, 18⟩, 200, 316, 60, true⟩ : MEnemy).alive = true ∧
    (⟨⟨160, 316, 260, 18⟩, 200, 316, 60, true⟩ : MEnemy).platform ∈
      (⟨[⟨0, 396, 3000, 144⟩, ⟨160, 316, 260, 18⟩],
        [⟨⟨160, 316, 260, 18⟩, 200, 316, 60, true⟩]⟩ :
          List Rect × List MEnemy).1 :=
  c6_no_dangling_enemy ⟨0, 396, 3000, 144⟩ [⟨160, 316, 260, 18⟩]
    [⟨⟨160, 316, 260, 18⟩, 200, 316, 60, true⟩] 0
    ⟨[⟨0, 396, 3000, 144⟩, ⟨160, 316, 260, 18⟩],
      [⟨⟨160, 316, 260, 18⟩, 200, 316, 60, true⟩]⟩
    (by intro e he
        rw [List.mem_singleton] at he
        subst he
        exact ⟨by decide, by norm_num [Rect.right]⟩)
    (by decide)
    ⟨⟨160, 316, 260, 18⟩, 200, 316, 60, true⟩ (by decide)

/-- Claim C7: a combat-resolution step over a single (player, enemy) pair
(each pair is evaluated independently during the loop, against the player
state current at that point) never produces both a stomp and a damage
outcome — the classification is an exclusive if/else —, and an enemy whose
`alive` flag is already false (e.g. stomped in an earlier step) is skipped
entirely: the step returns the player and enemy unchanged with both flags
false, so a stomped enemy never collides with the player again. -/
theorem c7_stomp_damage_exclusive (p : PState) (e : MEnemy) :
    (¬ ((checkPlayerEnemy p [e]).2.2.1 = true ∧
        (checkPlayerEnemy p [e]).2.2.2 = true)) ∧
    (e.alive = false → checkPlayerEnemy p [e] = (p, [e], false, false)) := by
  constructor
  · simp only [checkPlayerEnemy, checkPEgo]
    split_ifs <;> simp
  · intro ha
    simp only [checkPlayerEnemy, checkPEgo, if_pos ha, List.nil_append]

/-- Witness for C7: a dead enemy overlapping the player's position is
skipped by the combat step, producing no outcome at all. -/
theorem c7_stomp_damage_exclusive_witness :
    checkPlayerEnemy ⟨⟨100, 100, 0, 0, 20, 40, true⟩, 0, 3⟩
        [⟨⟨0, 100, 200, 18⟩, 100, 100, 60, false⟩]
      = (⟨⟨100, 100, 0, 0, 20, 40, true⟩, 0, 3⟩,
        [⟨⟨0, 100, 200, 18⟩, 100, 100, 60, false⟩], false, false) :=
  (c7_stomp_damage_exclusive ⟨⟨100, 100, 0, 0, 20, 40, true⟩, 0, 3⟩
    ⟨⟨0, 100, 200, 18⟩, 100, 100, 60, false⟩).2 rfl

/-- Claim C8 counterexample: the horizontal knockback is NOT directed away
from the enemy: it is directed opposite to the current input direction
(`vx = -320 if move_dir >= 0 else 320`). Concretely, a vulnerable player at
x = 100 overlapping a living enemy at x = 80 (enemy strictly to the
player's left) with `move_dir = 0` receives the damage outcome and
knockback `vx = -320 < 0`, i.e. toward the enemy. -/
theorem c8_damage_application_counterexample :
    (checkPlayerEnemy ⟨⟨100, 100, 0, 0, 20, 40, true⟩, 0, 3⟩
        [⟨⟨0, 100, 200, 18⟩, 80, 100, 60, true⟩]).2.2.2 = true ∧
    (⟨⟨0, 100, 200, 18⟩, 80, 100, 60, true⟩ : MEnemy).x
        < (⟨⟨100, 100, 0, 0, 20, 40, true⟩, 0, 3⟩ : PState).body.x ∧
    (⟨⟨100, 100, 0, 0, 20, 40, true⟩, 0, 3⟩ : PState).invuln ≤ 0 ∧
    (applyDamage ⟨⟨100, 100, 0, 0, 20, 40, true⟩, 0, 3⟩ 0
        (checkPlayerEnemy ⟨⟨100, 100, 0, 0, 20, 40, true⟩, 0, 3⟩
          [⟨⟨0, 100, 200, 18⟩, 80, 100, 60, true⟩]).2.2.2 396 0).1.body.vx
      < 0 := by
  refine ⟨by decide, by decide, by decide, by decide⟩

/-- Claim C8, amended: for a damage outcome, damage is applied only if the
player is not invulnerable (`invuln <= 0`; with `invuln > 0` the state is
completely unchanged); when applied (and health stays positive, so the
death-reset branch is not taken) health is decremented by exactly one, the
invulnerability timer is started at `INVULN_TIME = 0.9`, a fixed upward
vertical knockback `vy = -420` is applied, `on_ground` is cleared, and the
horizontal knockback is directed opposite to the current input move
direction — `vx = -320` if `move_dir >= 0`, else `vx = 320` — not away from
the enemy. -/
theorem c8_damage_application (p : PState) (mdir : ℤ) (gt : ℤ) (cam : ℚ) :
    (p.invuln ≤ 0 → 2 ≤ p.hp →
      (applyDamage p mdir true gt cam).1.hp = p.hp - 1 ∧
      (applyDamage p mdir true gt cam).1.invuln = 9/10 ∧
      (applyDamage p mdir true gt cam).1.body.vy = -420 ∧
      (applyDamage p mdir true gt cam).1.body.vx
          = (if 0 ≤ mdir then (-320 : ℚ) else 320) ∧
      (applyDamage p mdir true gt cam).1.body.on_ground = false ∧
      (applyDamage p mdir true gt cam).2 = cam) ∧
    (0 < p.invuln → applyDamage p mdir true gt cam = (p, cam)) := by
  constructor
  · intro hi hhp
    simp only [applyDamage]
    rw [if_neg (by omega : ¬ p.hp - 1 ≤ 0)]
    rw [if_pos (⟨trivial, hi⟩ : True ∧ p.invuln ≤ 0)]
    exact ⟨rfl, rfl, rfl, rfl, rfl, rfl⟩
  · intro hi
    simp only [applyDamage]
    rw [if_neg (fun hcond => not_le.mpr hi hcond.2)]

/-- Witness for C8 (amended): a vulnerable player with 3 health takes a hit
with `move_dir = 1` (knocked leftward, opposite to the input direction);
an invulnerable player is untouched. -/
theorem c8_damage_application_witness :
    ((applyDamage ⟨⟨100, 100, 0, 0, 20, 40, true⟩, 0, 3⟩ 1 true 396 7).1.hp
        = 3 - 1 ∧
      (applyDamage ⟨⟨100, 100, 0, 0, 20, 40, true⟩, 0, 3⟩ 1 true 396 7).1.invuln
        = 9/10 ∧
      (applyDamage ⟨⟨100, 100, 0, 0, 20, 40, true⟩, 0, 3⟩ 1 true 396 7).1.body.vy
        = -420 ∧
      (applyDamage ⟨⟨100, 100, 0, 0, 20, 40, true⟩, 0, 3⟩ 1 true 396 7).1.body.vx
        = (if (0 : ℤ) ≤ 1 then (-320 : ℚ) else 320) ∧
      (applyDamage ⟨⟨100, 100, 0, 0, 20, 40, true⟩, 0, 3⟩ 1
          true 396 7).1.body.on_ground = false ∧
      (applyDamage ⟨⟨100, 100, 0, 0, 20, 40, true⟩, 0, 3⟩ 1 true 396 7).2 = 7) ∧
    applyDamage ⟨⟨100, 100, 0, 0, 20, 40, true⟩, 1/2, 3⟩ 1 true 396 7
      = (⟨⟨100, 100, 0, 0, 20, 40, true⟩, 1/2, 3⟩, 7) :=
  ⟨(c8_damage_application ⟨⟨100, 100, 0, 0, 20, 40, true⟩, 0, 3⟩ 1 396 7).1
      (by norm_num) (by norm_num),
    (c8_damage_application ⟨⟨100, 100, 0, 0, 20, 40, true⟩, 1/2, 3⟩ 1 396 7).2
      (by norm_num)⟩
